import Mathlib

/-!
Verification of the field-composition core of a lens-based form library.

The embedding follows the TypeScript source:
- `errors.ts`: `FormError`, `descendErrors`
- `field.ts`: `FormFieldImpl` (constructor, `doPipe`, `doProp`, `doTransform`,
  `doNarrow`, `doOr`) and the `FormField` operator constructors
  (`prop`, `transform`, `narrow`).

Mutation callbacks (`setValue`, `setErrors`, `blur`, `commit`, `focus`) are
side-effecting in the source; here each is a pure function into an abstract
observation type (`ρ` for value writes, `σ` for error writes, `ε` for the
blur/commit/focus triggers), so a call's entire effect is the value it hands
to the upstream input. Instantiating the root input with identity observers
makes the exact argument passed to the root's setter observable.

JavaScript record values are embedded as the inductive type `Val`, with
objects as key-ordered association lists, matching spread-update semantics
(`{...o, [k]: v}` replaces in place when the key exists, appends otherwise).
-/

/-- A path segment: a property name (string) or an array index (number). -/
inductive PathSeg where
  | str (s : String)
  | num (n : Int)
deriving DecidableEq, Repr

/-- Source `FormErrorPath` from `errors.ts`: a sequence of path segments. -/
abbrev FormErrorPath := List PathSeg

/-- Source `FormError` from `errors.ts`: a message, a path, and an optional
temporary flag. -/
structure FormError where
  message : String
  path : FormErrorPath
  temporary : Option Bool := none
deriving DecidableEq, Repr

/-- Source `descendErrors` from `errors.ts`:
`errors.filter(_ => equals(_.path.slice(0, path.length), path)).map(error =>
({ ...error, path: error.path.slice(path.length) }))`. -/
def descendErrors (errors : List FormError) (path : FormErrorPath) : List FormError :=
  (errors.filter (fun e => decide (e.path.take path.length = path))).map
    (fun e => { e with path := e.path.drop path.length })

/-- The path re-prefixing map inlined in `FormFieldImpl.doPipe`'s derived
`setErrors` (`newErrors.map(error => ({ ...error, path: [...operator.path ?? [],
...error.path] }))`), i.e. the spec's "ascend" operation. -/
def ascendErrors (errors : List FormError) (path : FormErrorPath) : List FormError :=
  errors.map (fun e => { e with path := path ++ e.path })

/-- Source `ValueOrFactory<T, [T]>` from the `value-or-factory` dependency:
either a plain value or an updater function. -/
def ValueOrFactory (T : Type) := T ⊕ (T → T)

/-- Source `callOrGet` from the `value-or-factory` dependency: apply the updater to
the argument, or return the plain value. -/
def callOrGet {T : Type} (v : ValueOrFactory T) (arg : T) : T :=
  match v with
  | .inl value => value
  | .inr f => f arg

/-- A JavaScript value: objects are key-ordered association lists. -/
inductive Val where
  | undef
  | null
  | num (n : Int)
  | str (s : String)
  | bool (b : Bool)
  | obj (fields : List (String × Val))

/-- First-match lookup in an object's field list; `undef` when absent
(JavaScript `o[k]`). -/
def lookupKey (k : String) : List (String × Val) → Val
  | [] => .undef
  | (k', v) :: rest => if k' = k then v else lookupKey k rest

/-- JavaScript `{...o, [k]: v}`: replace in place when the key exists, append otherwise. -/
def setKey (k : String) (v : Val) : List (String × Val) → List (String × Val)
  | [] => [(k, v)]
  | (k', v') :: rest => if k' = k then (k, v) :: rest else (k', v') :: setKey k v rest

/-- Whether a key occurs in an object's field list. -/
def hasKey (k : String) : List (String × Val) → Bool
  | [] => false
  | (k', _) :: rest => k' == k || hasKey k rest

/-- JavaScript nullish coalescing `v ?? d`. -/
def Val.coalesce (v d : Val) : Val :=
  match v with
  | .undef => d
  | .null => d
  | _ => v

/-- A ramda lens: `view` reads the projection, `set` writes a projected value
back into a container (`set l v s`). `lens(to, back)` in the source builds one
from a getter and a setter. -/
structure Lens (I O : Type) where
  view : I → O
  set : O → I → I

/-- Source `FormField.OperatorWithPath` from `field.ts`: an operator bundled with
optional path segments (`path?: readonly (string | number)[] | undefined`). -/
structure OperatorWithPath (I O : Type) where
  operator : Lens I O
  path : Option (List PathSeg) := none

/-- Source `FieldInput` (the upstream contract consumed by `FormFieldImpl.from`):
value, mutators, error list and triggers, plus the accumulated path and the
disabled flag. Callback effects are abstracted: `setValue` observes into `ρ`,
`setErrors` into `σ`, and the blur/commit/focus triggers are tokens in `ε`. -/
structure FieldInput (T ρ σ ε : Type) where
  path : List PathSeg
  value : T
  disabled : Bool
  setValue : ValueOrFactory T → ρ
  errors : Option (List FormError)
  setErrors : ValueOrFactory (List FormError) → σ
  blur : ε
  commit : ε
  focus : ε

/-- Argument of `toggle` in `field.ts`: `"focused" | "blurred"`. -/
inductive FocusStatus where
  | focused
  | blurred

/-- The members of `FormFieldImpl` as assigned in its constructor. -/
structure FormFieldImpl (T ρ σ ε : Type) where
  path : List PathSeg
  disabled : Bool
  value : T
  setValue : ValueOrFactory T → ρ
  setValueAndCommit : T → ρ × ε
  blur : ε
  commit : ε
  focus : ε
  toggle : FocusStatus → ε
  errors : Option (List FormError)
  selfErrors : Option (List FormError)
  hasErrors : Bool
  hasSelfErrors : Bool
  setErrors : ValueOrFactory (List FormError) → σ

/-- Source `FormFieldImpl.from` and the private constructor in `field.ts`: copies the
input's members and computes the derived members (`toggle`,
`setValueAndCommit`, `selfErrors = from.errors?.filter(_ => _.path.length
=== 0)`, `hasErrors = (from.errors?.length ?? 0) > 0`, `hasSelfErrors =
(this.selfErrors?.length ?? 0) > 0`). -/
def FormFieldImpl.from {T ρ σ ε : Type} (input : FieldInput T ρ σ ε) :
    FormFieldImpl T ρ σ ε :=
  let selfErrors := input.errors.map (fun es => es.filter (fun e => e.path.length == 0))
  { path := input.path
    disabled := input.disabled
    value := input.value
    setValue := input.setValue
    blur := input.blur
    commit := input.commit
    focus := input.focus
    toggle := fun status =>
      match status with
      | .focused => input.focus
      | .blurred => input.blur
    setValueAndCommit := fun value => (input.setValue (Sum.inl value), input.commit)
    errors := input.errors
    selfErrors := selfErrors
    hasErrors := decide (0 < (input.errors.map List.length).getD 0)
    hasSelfErrors := decide (0 < (selfErrors.map List.length).getD 0)
    setErrors := input.setErrors }

/-- Source `FormFieldImpl.doPipe` on an `OperatorWithPath` bundle. The returned
input's `path` embeds the source line
`path: [...this.path, ...this.path !== undefined ? this.path : []]`:
since `this.path` is an array (never `undefined` at this point — it was just
spread), the ternary takes its first branch, so the result is
`this.path ++ this.path`; `operator.path` is not consulted. `newSetValue`
passes the parent an updater that resolves the projected value against
`view(operator.operator, prev)` but writes it into the captured snapshot
`this.value`. -/
def FormFieldImpl.doPipe {T ρ σ ε N : Type} (f : FormFieldImpl T ρ σ ε)
    (op : OperatorWithPath T N) : FormFieldImpl N ρ σ ε :=
  let newValue := op.operator.view f.value
  let newSetValue : ValueOrFactory N → ρ := fun nv =>
    f.setValue (Sum.inr (fun prev =>
      op.operator.set (callOrGet nv (op.operator.view prev)) f.value))
  let errors := descendErrors (f.errors.getD []) (op.path.getD [])
  let newSetErrors : ValueOrFactory (List FormError) → σ := fun es =>
    f.setErrors (Sum.inr (fun prevErrors =>
      let newErrors := callOrGet es (descendErrors prevErrors (op.path.getD []))
      newErrors.map (fun error => { error with path := op.path.getD [] ++ error.path })))
  FormFieldImpl.from
    { path := f.path ++ f.path
      value := newValue
      disabled := f.disabled
      setValue := newSetValue
      blur := f.blur
      commit := f.commit
      focus := f.focus
      errors := some errors
      setErrors := newSetErrors }

/-- The `typeof operator === "function"` branch of `doPipe`: a bare lens is
wrapped as `{ operator }` with no path. -/
def FormFieldImpl.pipeLens {T ρ σ ε N : Type} (f : FormFieldImpl T ρ σ ε)
    (l : Lens T N) : FormFieldImpl N ρ σ ε :=
  f.doPipe { operator := l, path := none }

/-- Source `FormField.prop(key)` from `field.ts`, at the JavaScript-value level:
`{ operator: lensProp(key), path: [key] }` where ramda's `lensProp` views the
property and sets it by spread-update. -/
def FormField.prop (key : String) : OperatorWithPath Val Val :=
  { operator :=
      { view := fun v =>
          match v with
          | .obj fields => lookupKey key fields
          | _ => .undef
        set := fun x v =>
          match v with
          | .obj fields => .obj (setKey key x fields)
          | _ => .obj [(key, x)] }
    path := some [PathSeg.str key] }

/-- Source `FormField.transform(to, back)` from `field.ts`: `lens(to, back)` — the
setter ignores the prior container and rebuilds it from the projected value
(`back` is unary). -/
def FormField.transform {I O : Type} (toFn : I → O) (back : O → I) : Lens I O :=
  { view := toFn
    set := fun v _ => back v }

/-- Source `FormField.narrow(func)` from `field.ts`: `transform(func, identity)`. -/
def FormField.narrow {T : Type} (func : T → T) : Lens T T :=
  FormField.transform func id

/-- Source `FormFieldImpl.doProp(key)`: `doPipe(FormField.prop(key))`. -/
def FormFieldImpl.doProp {ρ σ ε : Type} (f : FormFieldImpl Val ρ σ ε)
    (key : String) : FormFieldImpl Val ρ σ ε :=
  f.doPipe (FormField.prop key)

/-- Source `FormFieldImpl.doTransform(to, back)`: `doPipe(FormField.transform(to,
back))` (a bare lens, so the function branch of `doPipe` applies). -/
def FormFieldImpl.doTransform {T ρ σ ε N : Type} (f : FormFieldImpl T ρ σ ε)
    (toFn : T → N) (back : N → T) : FormFieldImpl N ρ σ ε :=
  f.pipeLens (FormField.transform toFn back)

/-- Source `FormFieldImpl.doNarrow(to)`: `doPipe(FormField.narrow(to))`. -/
def FormFieldImpl.doNarrow {T ρ σ ε : Type} (f : FormFieldImpl T ρ σ ε)
    (toFn : T → T) : FormFieldImpl T ρ σ ε :=
  f.pipeLens (FormField.narrow toFn)

/-- Source `FormFieldImpl.doOr(defaultValue)`: `doNarrow(value => value ??
defaultValue)`, at the JavaScript-value level. -/
def FormFieldImpl.doOr {ρ σ ε : Type} (f : FormFieldImpl Val ρ σ ε)
    (d : Val) : FormFieldImpl Val ρ σ ε :=
  f.doNarrow (fun value => value.coalesce d)

/-- An instrumented root input: `setValue` and `setErrors` are identity
observers, so a derived field's write surfaces as the exact
`ValueOrFactory` argument the root's setter receives. -/
def rootInput {T : Type} (path : List PathSeg) (v : T)
    (errs : Option (List FormError)) :
    FieldInput T (ValueOrFactory T) (ValueOrFactory (List FormError)) Unit :=
  { path := path
    value := v
    disabled := false
    setValue := id
    errors := errs
    setErrors := id
    blur := ()
    commit := ()
    focus := () }

/-- Fixture: the nested record `{a: {b: 1}}`. -/
def exampleNestedValue : Val := .obj [("a", .obj [("b", .num 1)])]

/-- Fixture: a root field over `{a: {b: 1}}`, built from an instrumented
input with empty path and no errors. -/
def exampleNestedRoot :
    FormFieldImpl Val (ValueOrFactory Val) (ValueOrFactory (List FormError)) Unit :=
  FormFieldImpl.from (rootInput [] exampleNestedValue none)

/-- Fixture: the derived field `root.prop("a").prop("b")`. -/
def exampleFieldB :
    FormFieldImpl Val (ValueOrFactory Val) (ValueOrFactory (List FormError)) Unit :=
  (exampleNestedRoot.doProp "a").doProp "b"

/-- Fixture: the flat record `{a: 1, c: 2}`. -/
def exampleSiblingValue : Val := .obj [("a", .num 1), ("c", .num 2)]

/-- Fixture: a root field over `{a: 1, c: 2}`. -/
def exampleSiblingRoot :
    FormFieldImpl Val (ValueOrFactory Val) (ValueOrFactory (List FormError)) Unit :=
  FormFieldImpl.from (rootInput [] exampleSiblingValue none)

/-- A functional updater: add `k` to a numeric value, otherwise no change. -/
def addToNum (k : Int) : Val → Val
  | .num n => .num (n + k)
  | v => v

/-- The root updater observed when the derived field `prop("a")` of the
sibling fixture writes with the functional updater `addToNum 1`. -/
def exampleWriteA : ValueOrFactory Val :=
  (exampleSiblingRoot.doProp "a").setValue (Sum.inr (addToNum 1))

/-- The root updater observed when the derived field `prop("c")` of the
sibling fixture writes with the functional updater `addToNum 2`. -/
def exampleWriteC : ValueOrFactory Val :=
  (exampleSiblingRoot.doProp "c").setValue (Sum.inr (addToNum 2))

/-- Fixture: the root error list
`[{message:"x", path:["a","b"]}, {message:"y", path:["c"]}]`. -/
def exampleRootErrors : List FormError :=
  [⟨"x", [.str "a", .str "b"], none⟩, ⟨"y", [.str "c"], none⟩]

/-- Fixture: a root field carrying `exampleRootErrors`. -/
def exampleErrorRoot :
    FormFieldImpl Val (ValueOrFactory Val) (ValueOrFactory (List FormError)) Unit :=
  FormFieldImpl.from (rootInput [] exampleNestedValue (some exampleRootErrors))

/-- A field narrowed via `or(d)` over an instrumented root with value `v`. -/
def orField (v d : Val) :
    FormFieldImpl Val (ValueOrFactory Val) (ValueOrFactory (List FormError)) Unit :=
  (FormFieldImpl.from (rootInput [] v none)).doOr d

theorem coalesce_self (d : Val) : Val.coalesce d d = d := by
  cases d <;> rfl

theorem setKey_lookupKey (k : String) (fields : List (String × Val))
    (h : hasKey k fields = true) :
    setKey k (lookupKey k fields) fields = fields := by
  induction fields with
  | nil => simp [hasKey] at h
  | cons p rest ih =>
    obtain ⟨k', v'⟩ := p
    by_cases hk : k' = k
    · subst hk
      simp [lookupKey, setKey]
    · have h' : hasKey k rest = true := by
        simp [hasKey, hk] at h
        simpa using h
      simp [lookupKey, setKey, hk, ih h']

/-- C2: the claim states that a derived field's `path` is the concatenation
of the root path and the segments contributed by each composition step, so
`root.prop("a").prop("b").path == ["a", "b"]`. The code computes the derived
path as `[...this.path, ...this.path !== undefined ? this.path : []]`, never
consulting `operator.path`: from an empty root path the derived path stays
`[]`, and from the root path `["r"]` one `prop("a")` step yields
`["r", "r"]`. -/
theorem path_not_accumulated :
    ((exampleNestedRoot.doProp "a").doProp "b").path = [] ∧
    ((exampleNestedRoot.doProp "a").doProp "b").path
      ≠ [PathSeg.str "a", PathSeg.str "b"] ∧
    ((FormFieldImpl.from
        (rootInput [PathSeg.str "r"] exampleNestedValue none)).doProp "a").path
      = [PathSeg.str "r", PathSeg.str "r"] := by
  refine ⟨rfl, ?_, rfl⟩
  decide

/-- C1: the claim states that two derived fields over distinct keys, each
writing through `setValue` with a functional updater, commute: either order
of the two resulting root updates yields the same merged root value. In the
code, `newSetValue` writes into the captured snapshot `this.value` rather
than into the latest upstream value `prev`, so the first update is lost:
from `{a: 1, c: 2}`, updating `a` by `+1` then `c` by `+2` yields
`{a: 1, c: 4}`, while the opposite order yields `{a: 2, c: 2}`. -/
theorem setValue_snapshot_divergence :
    callOrGet exampleWriteC (callOrGet exampleWriteA exampleSiblingValue)
      = Val.obj [("a", .num 1), ("c", .num 4)] ∧
    callOrGet exampleWriteA (callOrGet exampleWriteC exampleSiblingValue)
      = Val.obj [("a", .num 2), ("c", .num 2)] ∧
    callOrGet exampleWriteC (callOrGet exampleWriteA exampleSiblingValue)
      ≠ callOrGet exampleWriteA (callOrGet exampleWriteC exampleSiblingValue) := by
  refine ⟨rfl, rfl, ?_⟩
  intro h
  rw [show callOrGet exampleWriteC (callOrGet exampleWriteA exampleSiblingValue)
      = Val.obj [("a", .num 1), ("c", .num 4)] from rfl] at h
  rw [show callOrGet exampleWriteA (callOrGet exampleWriteC exampleSiblingValue)
      = Val.obj [("a", .num 2), ("c", .num 2)] from rfl] at h
  simp [Val.obj.injEq] at h

/-- C3: for the root value `{a: {b: 1}}`, calling
`root.prop("a").prop("b").setValue(2)` hands the root input's `setValue` a
functional updater (the right injection) which, applied to `{a: {b: 1}}`,
returns `{a: {b: 2}}`. -/
theorem prop_write_propagation :
    (exampleFieldB.setValue (Sum.inl (Val.num 2))).isRight = true ∧
    callOrGet (exampleFieldB.setValue (Sum.inl (Val.num 2))) exampleNestedValue
      = Val.obj [("a", .obj [("b", .num 2)])] :=
  ⟨rfl, rfl⟩

/-- C4: `descendErrors` retains exactly the errors whose first `P.length`
path segments equal `P`, replaces each retained error's path by the
remainder, and yields `[]` when nothing matches; consequently, on the
fixture root errors, `root.prop("a").errors == [{message:"x", path:["b"]}]`,
`root.prop("c").errors == [{message:"y", path:[]}]`, and
`root.prop("c").selfErrors` is that same singleton list (length 1). -/
theorem descendErrors_scoping :
    (∀ (E : List FormError) (P : FormErrorPath) (e : FormError),
        e ∈ descendErrors E P ↔
          ∃ e₀, e₀ ∈ E ∧ e₀.path.take P.length = P ∧
            e = { e₀ with path := e₀.path.drop P.length }) ∧
    (∀ (E : List FormError) (P : FormErrorPath),
        (∀ e ∈ E, e.path.take P.length ≠ P) → descendErrors E P = []) ∧
    (exampleErrorRoot.doProp "a").errors = some [⟨"x", [PathSeg.str "b"], none⟩] ∧
    (exampleErrorRoot.doProp "c").errors = some [⟨"y", [], none⟩] ∧
    (exampleErrorRoot.doProp "c").selfErrors = some [⟨"y", [], none⟩] := by
  refine ⟨?_, ?_, rfl, rfl, rfl⟩
  · intro E P e
    simp only [descendErrors, List.mem_map, List.mem_filter, decide_eq_true_eq]
    constructor
    · rintro ⟨e₀, ⟨he, hp⟩, rfl⟩
      exact ⟨e₀, he, hp, rfl⟩
    · rintro ⟨e₀, he, hp, rfl⟩
      exact ⟨e₀, ⟨he, hp⟩, rfl⟩
  · intro E P h
    simp only [descendErrors, List.map_eq_nil_iff, List.filter_eq_nil_iff]
    intro e he
    simpa using h e he

/-- C4 witness: the general parts of `descendErrors_scoping` applied at
concrete inputs — the error `{y, ["c"]}` is in no relation to the path
`["z"]`, so descending by `["z"]` yields the empty list, and the membership
characterization holds at the matching error `{x, ["a","b"]}` and path
`["a"]`. -/
theorem descendErrors_scoping_witness :
    descendErrors [⟨"y", [PathSeg.str "c"], none⟩] [PathSeg.str "z"] = [] ∧
    (⟨"x", [PathSeg.str "b"], none⟩ : FormError)
      ∈ descendErrors exampleRootErrors [PathSeg.str "a"] :=
  ⟨descendErrors_scoping.2.1 [⟨"y", [PathSeg.str "c"], none⟩] [PathSeg.str "z"]
      (by decide),
    (descendErrors_scoping.1 exampleRootErrors [PathSeg.str "a"]
        ⟨"x", [PathSeg.str "b"], none⟩).mpr
      ⟨⟨"x", [PathSeg.str "a", PathSeg.str "b"], none⟩, by decide, by decide, by decide⟩⟩

/-- C5: re-prepending `P` to every path produced by `descendErrors E P` (the
ascend map used in the derived `setErrors`) restores exactly the sub-list of
`E` whose paths began with `P`, original paths and order intact. -/
theorem ascend_descend_round_trip (E : List FormError) (P : FormErrorPath) :
    ascendErrors (descendErrors E P) P
      = E.filter (fun e => decide (e.path.take P.length = P)) := by
  unfold ascendErrors descendErrors
  rw [List.map_map]
  have h : ∀ a ∈ E.filter (fun e => decide (e.path.take P.length = P)),
      ((fun e => { e with path := P ++ e.path }) ∘
        (fun e : FormError => { e with path := e.path.drop P.length })) a = id a := by
    intro a ha
    have hp : a.path.take P.length = P := by
      simpa using (List.mem_filter.mp ha).2
    obtain ⟨m, p, t⟩ := a
    simp only [Function.comp, id]
    simp only at hp
    rw [FormError.mk.injEq]
    refine ⟨rfl, ?_, rfl⟩
    nth_rewrite 1 [← hp]
    exact List.take_append_drop _ _
  rw [List.map_congr_left h, List.map_id]

/-- C6 counterexample: the claim states that a derived field's `setErrors`
merges the re-prefixed new errors into the parent's list, leaving parent
errors outside the derived path unchanged. On the fixture, the parent holds
the error `{y, ["c"]}`; after `root.prop("a").setErrors([{z, []}])` the
updater handed to the parent returns only `[{z, ["a"]}]` — the sibling error
`{y, ["c"]}` is not retained. -/
theorem setErrors_drops_sibling_errors :
    callOrGet ((exampleErrorRoot.doProp "a").setErrors
        (Sum.inl [⟨"z", [], none⟩])) [⟨"y", [PathSeg.str "c"], none⟩]
      = [⟨"z", [PathSeg.str "a"], none⟩] ∧
    (⟨"y", [PathSeg.str "c"], none⟩ : FormError) ∉
      callOrGet ((exampleErrorRoot.doProp "a").setErrors
        (Sum.inl [⟨"z", [], none⟩])) [⟨"y", [PathSeg.str "c"], none⟩] := by
  refine ⟨rfl, ?_⟩
  decide

/-- C6 amended: calling a derived field's `setErrors` hands the parent an
updater whose result is exactly the re-prefixed resolved errors (the new
errors, resolved against the descended previous list when an updater is
supplied) — it replaces the full parent error list, so every error in the
result lies under the derived path and parent errors outside that path are
not preserved. -/
theorem setErrors_replacement_semantics {T N ρ ε : Type}
    (input : FieldInput T ρ (ValueOrFactory (List FormError)) ε)
    (h : input.setErrors = id) (op : OperatorWithPath T N)
    (es : ValueOrFactory (List FormError)) (prev : List FormError) :
    callOrGet (((FormFieldImpl.from input).doPipe op).setErrors es) prev
      = ascendErrors (callOrGet es (descendErrors prev (op.path.getD [])))
          (op.path.getD []) ∧
    ∀ e ∈ callOrGet (((FormFieldImpl.from input).doPipe op).setErrors es) prev,
      e.path.take (op.path.getD []).length = op.path.getD [] := by
  have key : callOrGet (((FormFieldImpl.from input).doPipe op).setErrors es) prev
      = ascendErrors (callOrGet es (descendErrors prev (op.path.getD [])))
          (op.path.getD []) := by
    simp [FormFieldImpl.doPipe, FormFieldImpl.from, h, callOrGet, ascendErrors]
  refine ⟨key, ?_⟩
  rw [key]
  intro e he
  simp only [ascendErrors, List.mem_map] at he
  obtain ⟨e₀, _, rfl⟩ := he
  exact List.take_left _ _

/-- C6 witness: the amended replacement semantics applied to the
instrumented root input, a `prop("a")` step, a plain new-error list and the
previous parent list `[{y, ["c"]}]`. -/
theorem setErrors_replacement_semantics_witness :
    callOrGet (((FormFieldImpl.from (rootInput [] Val.undef none)).doPipe
        (FormField.prop "a")).setErrors (Sum.inl [⟨"z", [], none⟩]))
      [⟨"y", [PathSeg.str "c"], none⟩]
      = ascendErrors [⟨"z", [], none⟩] [PathSeg.str "a"] :=
  (setErrors_replacement_semantics (rootInput [] Val.undef none) rfl
      (FormField.prop "a") (Sum.inl [⟨"z", [], none⟩])
      [⟨"y", [PathSeg.str "c"], none⟩]).1

/-- C7: for any object and key present on it, writing back the value read
through the `prop(k)` lens leaves the object unchanged:
`set(prop(k), get(prop(k), o), o) == o`. -/
theorem prop_lens_no_op_write (k : String) (fields : List (String × Val))
    (h : hasKey k fields = true) :
    (FormField.prop k).operator.set
        ((FormField.prop k).operator.view (Val.obj fields)) (Val.obj fields)
      = Val.obj fields := by
  simp only [FormField.prop]
  rw [setKey_lookupKey k fields h]

/-- C7 witness: the no-op-write law at the object `{x: 1, y: 2}` and the
key `"x"`. -/
theorem prop_lens_no_op_write_witness :
    hasKey "x" [("x", Val.num 1), ("y", Val.num 2)] = true ∧
    (FormField.prop "x").operator.set
        ((FormField.prop "x").operator.view
          (Val.obj [("x", Val.num 1), ("y", Val.num 2)]))
        (Val.obj [("x", Val.num 1), ("y", Val.num 2)])
      = Val.obj [("x", Val.num 1), ("y", Val.num 2)] :=
  ⟨rfl, prop_lens_no_op_write "x" [("x", Val.num 1), ("y", Val.num 2)] rfl⟩

/-- C8: on a field derived via `or(d)` with `d` non-nullish, writing `d`
through `setValue` hands the root an updater that produces `d` as the new
root value (total, no exception), and the field re-derived from that updated
root value reads back `d` — for every prior root value `v`, including
`undefined`. -/
theorem or_write_default_round_trip (v d : Val)
    (h1 : d ≠ Val.undef) (h2 : d ≠ Val.null) :
    callOrGet ((orField v d).setValue (Sum.inl d)) v = d ∧
    (orField (callOrGet ((orField v d).setValue (Sum.inl d)) v) d).value = d := by
  refine ⟨rfl, ?_⟩
  show Val.coalesce d d = d
  exact coalesce_self d

/-- C8 witness: the round trip at the root value `undefined` and the default
`5`. -/
theorem or_write_default_round_trip_witness :
    (Val.num 5 ≠ Val.undef) ∧ (Val.num 5 ≠ Val.null) ∧
    (callOrGet ((orField Val.undef (Val.num 5)).setValue (Sum.inl (Val.num 5)))
        Val.undef = Val.num 5 ∧
      (orField (callOrGet ((orField Val.undef (Val.num 5)).setValue
          (Sum.inl (Val.num 5))) Val.undef) (Val.num 5)).value = Val.num 5) :=
  ⟨fun h => Val.noConfusion h, fun h => Val.noConfusion h,
    or_write_default_round_trip Val.undef (Val.num 5)
      (fun h => Val.noConfusion h) (fun h => Val.noConfusion h)⟩

/-- C9: every composition operation — `pipe` (both the bundled and the
bare-lens form), `prop`, `transform`, `narrow`, `or` — forwards `blur`,
`commit` and `focus` and the `disabled` flag from the parent field
unchanged. The trigger tokens live in an arbitrary type `ε`, so the
equalities hold only because the code copies them verbatim. -/
theorem composition_preserves_triggers {T N ρ σ ε : Type}
    (f : FormFieldImpl T ρ σ ε) (op : OperatorWithPath T N) (l : Lens T N)
    (toFn : T → N) (back : N → T) (nar : T → T)
    (g : FormFieldImpl Val ρ σ ε) (key : String) (d : Val) :
    ((f.doPipe op).blur = f.blur ∧ (f.doPipe op).commit = f.commit ∧
      (f.doPipe op).focus = f.focus ∧ (f.doPipe op).disabled = f.disabled) ∧
    ((f.pipeLens l).blur = f.blur ∧ (f.pipeLens l).commit = f.commit ∧
      (f.pipeLens l).focus = f.focus ∧ (f.pipeLens l).disabled = f.disabled) ∧
    ((f.doTransform toFn back).blur = f.blur ∧
      (f.doTransform toFn back).commit = f.commit ∧
      (f.doTransform toFn back).focus = f.focus ∧
      (f.doTransform toFn back).disabled = f.disabled) ∧
    ((f.doNarrow nar).blur = f.blur ∧ (f.doNarrow nar).commit = f.commit ∧
      (f.doNarrow nar).focus = f.focus ∧ (f.doNarrow nar).disabled = f.disabled) ∧
    ((g.doProp key).blur = g.blur ∧ (g.doProp key).commit = g.commit ∧
      (g.doProp key).focus = g.focus ∧ (g.doProp key).disabled = g.disabled) ∧
    ((g.doOr d).blur = g.blur ∧ (g.doOr d).commit = g.commit ∧
      (g.doOr d).focus = g.focus ∧ (g.doOr d).disabled = g.disabled) :=
  ⟨⟨rfl, rfl, rfl, rfl⟩, ⟨rfl, rfl, rfl, rfl⟩, ⟨rfl, rfl, rfl, rfl⟩,
    ⟨rfl, rfl, rfl, rfl⟩, ⟨rfl, rfl, rfl, rfl⟩, ⟨rfl, rfl, rfl, rfl⟩⟩

/-- C10: on a field whose input error list is `undefined`, `selfErrors` is
`undefined` and `hasErrors`/`hasSelfErrors` are `false`, while every
composition operation produces a field whose `errors` is the defined empty
list (a missing parent error list is treated as empty). -/
theorem missing_errors_treated_as_empty {T N ρ σ ε : Type}
    (input : FieldInput T ρ σ ε) (h : input.errors = none)
    (op : OperatorWithPath T N) (l : Lens T N) (toFn : T → N) (back : N → T)
    (nar : T → T) (g : FieldInput Val ρ σ ε) (hg : g.errors = none)
    (key : String) (d : Val) :
    (FormFieldImpl.from input).selfErrors = none ∧
    (FormFieldImpl.from input).hasErrors = false ∧
    (FormFieldImpl.from input).hasSelfErrors = false ∧
    ((FormFieldImpl.from input).doPipe op).errors = some [] ∧
    ((FormFieldImpl.from input).pipeLens l).errors = some [] ∧
    ((FormFieldImpl.from input).doTransform toFn back).errors = some [] ∧
    ((FormFieldImpl.from input).doNarrow nar).errors = some [] ∧
    ((FormFieldImpl.from g).doProp key).errors = some [] ∧
    ((FormFieldImpl.from g).doOr d).errors = some [] := by
  simp [FormFieldImpl.from, FormFieldImpl.doPipe, FormFieldImpl.pipeLens,
    FormFieldImpl.doTransform, FormFieldImpl.doNarrow, FormFieldImpl.doProp,
    FormFieldImpl.doOr, descendErrors, h, hg]

/-- C10 witness: the undefined-error behavior at a concrete instrumented
input with no error list and a `prop("a")` step, plus each derived member at
a concrete composition. -/
theorem missing_errors_treated_as_empty_witness :
    (FormFieldImpl.from (rootInput [] Val.undef none)).selfErrors = none ∧
    (FormFieldImpl.from (rootInput [] Val.undef none)).hasErrors = false ∧
    ((FormFieldImpl.from (rootInput [] Val.undef none)).doProp "a").errors
      = some [] :=
  ⟨(missing_errors_treated_as_empty (rootInput [] Val.undef none) rfl
      (FormField.prop "a") (FormField.narrow id) id id id
      (rootInput [] Val.undef none) rfl "a" Val.undef).1,
    (missing_errors_treated_as_empty (rootInput [] Val.undef none) rfl
      (FormField.prop "a") (FormField.narrow id) id id id
      (rootInput [] Val.undef none) rfl "a" Val.undef).2.1,
    (missing_errors_treated_as_empty (rootInput [] Val.undef none) rfl
      (FormField.prop "a") (FormField.narrow id) id id id
      (rootInput [] Val.undef none) rfl "a" Val.undef).2.2.2.2.2.2.2.1⟩
